import Mathlib

/-!
Verification of the `AdamUpdate` update policy (Adam and AdaMax optimizers)
from `src/adam/adam_update.hpp`.

The C++ class stores three scalar hyperparameters (`epsilon`, `beta1`,
`beta2`), a Bool `adaMax` selecting the variant, and three `arma::mat`
accumulators: `m` (exponential moving average of gradients), `u`
(exponentially weighted infinity norm, used by AdaMax) and `v` (exponential
moving average of squared gradients, used by Adam).

We embed the class shallowly: matrices become functions `Fin r → Fin c → ℝ`,
`double` becomes `ℝ` (exact real arithmetic; rounding is not modelled), and
the two member functions become pure state transformers.  A second, tiny
scalar model `Fp` adds the IEEE-754 special values (infinities and NaN) on
top of exact arithmetic; it is used to settle the claim about the non-finite
result of the unguarded division at `iterationIndex = 0`.
-/

/-- A dense `r` by `c` real matrix, indexed like `arma::mat`. -/
abbrev Mat (r c : ℕ) := Fin r → Fin c → ℝ

/-- State of the C++ class `AdamUpdate`: the constructor parameters
`epsilon`, `beta1`, `beta2`, `adaMax` and the member matrices `m`, `u`, `v`.
The matrix dimensions are carried in the type. -/
structure AdamUpdate (r c : ℕ) where
  epsilon : ℝ
  beta1 : ℝ
  beta2 : ℝ
  adaMax : Bool
  m : Mat r c
  u : Mat r c
  v : Mat r c

/-- `AdamUpdate::Initialize(rows, cols)` (named `Initialise` here): sets
`m` to the zero matrix and, depending on `adaMax`, sets `u` (AdaMax) or `v`
(Adam) to the zero matrix.  The other accumulator is left untouched.  In the
C++ code the dimensions are arguments; here they are fixed by the state's
type, which models the usual call with the gradient's shape. -/
def AdamUpdate.Initialise {r c : ℕ} (s : AdamUpdate r c) : AdamUpdate r c :=
  if s.adaMax then
    { s with m := 0, u := 0 }
  else
    { s with m := 0, v := 0 }

/-- `AdamUpdate::Update(iterate, stepSize, gradient, i)`, translated line by
line from the C++ body.  Returns the new state paired with the new iterate.

* `m *= beta1; m += (1 - beta1) * gradient;`
* AdaMax branch: `u *= beta2; u = arma::max(u, arma::abs(gradient));`
* Adam branch: `v *= beta2; v += (1 - beta2) * (gradient % gradient);`
* `biasCorrection1 = 1 - pow(beta1, i)`, `biasCorrection2 = 1 - pow(beta2, i)`
* AdaMax branch, guarded by `biasCorrection1 != 0`:
  `iterate -= stepSize / biasCorrection1 * m / (u + epsilon);`
* Adam branch, unguarded:
  `iterate -= (stepSize * sqrt(biasCorrection2) / biasCorrection1) * m
              / (arma::sqrt(v) + epsilon);` -/
noncomputable def AdamUpdate.Update {r c : ℕ} (s : AdamUpdate r c)
    (iterate : Mat r c) (stepSize : ℝ) (gradient : Mat r c) (i : ℕ) :
    AdamUpdate r c × Mat r c :=
  let m1 : Mat r c := fun a b => s.beta1 * s.m a b + (1 - s.beta1) * gradient a b
  if s.adaMax then
    let u1 : Mat r c := fun a b => max (s.beta2 * s.u a b) |gradient a b|
    let biasCorrection1 := 1 - s.beta1 ^ i
    let iterate1 : Mat r c :=
      if biasCorrection1 ≠ 0 then
        fun a b => iterate a b -
          stepSize / biasCorrection1 * m1 a b / (u1 a b + s.epsilon)
      else iterate
    ({ s with m := m1, u := u1 }, iterate1)
  else
    let v1 : Mat r c := fun a b =>
      s.beta2 * s.v a b + (1 - s.beta2) * (gradient a b * gradient a b)
    let biasCorrection1 := 1 - s.beta1 ^ i
    let biasCorrection2 := 1 - s.beta2 ^ i
    let iterate1 : Mat r c := fun a b =>
      iterate a b -
        stepSize * Real.sqrt biasCorrection2 / biasCorrection1 * m1 a b /
          (Real.sqrt (v1 a b) + s.epsilon)
    ({ s with m := m1, v := v1 }, iterate1)

/-- A sample 1 by 1 state used to instantiate hypotheses at concrete inputs:
standard Adam variant (`adaMax = false`) with `epsilon = 1`,
`beta1 = beta2 = 1/2`, all accumulators zero. -/
noncomputable def sampleAdam : AdamUpdate 1 1 :=
  { epsilon := 1, beta1 := 1/2, beta2 := 1/2, adaMax := false,
    m := 0, u := 0, v := 0 }

/-- The same sample state with the AdaMax variant selected. -/
noncomputable def sampleAdaMax : AdamUpdate 1 1 :=
  { sampleAdam with adaMax := true }

/-- The 1 by 1 all-ones matrix, a sample gradient. -/
def onesMat : Mat 1 1 := fun _ _ => 1

/-- Claim C1: in Adam mode (`adaMax = false`), for any `i ≥ 1`, `Update`
performs exactly `m ← beta1·m + (1−beta1)·g`,
`v ← beta2·v + (1−beta2)·(g ⊙ g)`, and
`iterate ← iterate − (stepSize·sqrt(1−beta2^i)/(1−beta1^i)) · m / (sqrt v + epsilon)`
elementwise, with the bare `epsilon` in the denominator. -/
theorem adamUpdate_standard_formula_c1 {r c : ℕ} (s : AdamUpdate r c)
    (iterate : Mat r c) (stepSize : ℝ) (gradient : Mat r c) (i : ℕ)
    (hA : s.adaMax = false) (hi : 1 ≤ i) :
    s.Update iterate stepSize gradient i =
      ({ s with
          m := fun a b => s.beta1 * s.m a b + (1 - s.beta1) * gradient a b,
          v := fun a b =>
            s.beta2 * s.v a b + (1 - s.beta2) * (gradient a b * gradient a b) },
       fun a b =>
         iterate a b -
           stepSize * Real.sqrt (1 - s.beta2 ^ i) / (1 - s.beta1 ^ i) *
             (s.beta1 * s.m a b + (1 - s.beta1) * gradient a b) /
             (Real.sqrt (s.beta2 * s.v a b +
                (1 - s.beta2) * (gradient a b * gradient a b)) + s.epsilon)) := by
  simp [AdamUpdate.Update, hA]

/-- Witness for C1, at the concrete sample state, step size 1, gradient of
ones and iteration index 1. -/
theorem adamUpdate_standard_formula_c1_witness :
    sampleAdam.adaMax = false ∧ 1 ≤ 1 ∧
      sampleAdam.Update onesMat 1 onesMat 1 =
        ({ sampleAdam with
            m := fun a b => sampleAdam.beta1 * sampleAdam.m a b +
              (1 - sampleAdam.beta1) * onesMat a b,
            v := fun a b => sampleAdam.beta2 * sampleAdam.v a b +
              (1 - sampleAdam.beta2) * (onesMat a b * onesMat a b) },
         fun a b =>
           onesMat a b -
             1 * Real.sqrt (1 - sampleAdam.beta2 ^ 1) / (1 - sampleAdam.beta1 ^ 1) *
               (sampleAdam.beta1 * sampleAdam.m a b +
                 (1 - sampleAdam.beta1) * onesMat a b) /
               (Real.sqrt (sampleAdam.beta2 * sampleAdam.v a b +
                  (1 - sampleAdam.beta2) * (onesMat a b * onesMat a b)) +
                sampleAdam.epsilon)) :=
  ⟨rfl, le_refl 1,
    adamUpdate_standard_formula_c1 sampleAdam onesMat 1 onesMat 1 rfl (le_refl 1)⟩

/-- Claim C2: for every call in AdaMax mode (`adaMax = true`), the state is
updated unconditionally — `m ← beta1·m + (1−beta1)·g` and
`u ← max(beta2·u, |g|)` elementwise, the elementwise maximum of the decayed
previous norm and the absolute gradient — and whenever `1 − beta1^i ≠ 0`
the parameters are updated as
`iterate ← iterate − (stepSize/(1−beta1^i)) · m / (u + epsilon)`
elementwise, where `m` and `u` are the freshly updated accumulators. -/
theorem adaMaxUpdate_formula_c2 {r c : ℕ} (s : AdamUpdate r c)
    (iterate : Mat r c) (stepSize : ℝ) (gradient : Mat r c) (i : ℕ)
    (hA : s.adaMax = true) :
    (s.Update iterate stepSize gradient i).1 =
      { s with
          m := fun a b => s.beta1 * s.m a b + (1 - s.beta1) * gradient a b,
          u := fun a b => max (s.beta2 * s.u a b) |gradient a b| } ∧
    (1 - s.beta1 ^ i ≠ 0 →
      (s.Update iterate stepSize gradient i).2 =
        fun a b =>
          iterate a b -
            stepSize / (1 - s.beta1 ^ i) *
              (s.beta1 * s.m a b + (1 - s.beta1) * gradient a b) /
              (max (s.beta2 * s.u a b) |gradient a b| + s.epsilon)) := by
  constructor
  · simp [AdamUpdate.Update, hA]
  · intro hb
    simp [AdamUpdate.Update, hA, hb]

/-- Witness for C2, at the concrete AdaMax sample state with iteration
index 1 (so the inner guard `1 − beta1^1 = 1/2 ≠ 0` can be exercised). -/
theorem adaMaxUpdate_formula_c2_witness :
    sampleAdaMax.adaMax = true ∧
      ((sampleAdaMax.Update onesMat 1 onesMat 1).1 =
        { sampleAdaMax with
            m := fun a b => sampleAdaMax.beta1 * sampleAdaMax.m a b +
              (1 - sampleAdaMax.beta1) * onesMat a b,
            u := fun a b =>
              max (sampleAdaMax.beta2 * sampleAdaMax.u a b) |onesMat a b| } ∧
      (1 - sampleAdaMax.beta1 ^ 1 ≠ 0 →
        (sampleAdaMax.Update onesMat 1 onesMat 1).2 =
          fun a b =>
            onesMat a b -
              1 / (1 - sampleAdaMax.beta1 ^ 1) *
                (sampleAdaMax.beta1 * sampleAdaMax.m a b +
                  (1 - sampleAdaMax.beta1) * onesMat a b) /
                (max (sampleAdaMax.beta2 * sampleAdaMax.u a b) |onesMat a b| +
                 sampleAdaMax.epsilon))) :=
  ⟨rfl, adaMaxUpdate_formula_c2 sampleAdaMax onesMat 1 onesMat 1 rfl⟩

/-- Claim C3: in AdaMax mode with `beta1 ≠ 1`, calling `Update` with
iteration index 0 leaves the parameter matrix exactly unchanged (the guard
`biasCorrection1 != 0` fails since `1 − beta1^0 = 0`), and no error is
raised: the function is total and simply skips the iterate assignment. -/
theorem adaMaxUpdate_i0_noop_c3 {r c : ℕ} (s : AdamUpdate r c)
    (iterate : Mat r c) (stepSize : ℝ) (gradient : Mat r c)
    (hA : s.adaMax = true) (hb1 : s.beta1 ≠ 1) :
    (s.Update iterate stepSize gradient 0).2 = iterate := by
  simp [AdamUpdate.Update, hA]

/-- Witness for C3 at the concrete AdaMax sample state (`beta1 = 1/2 ≠ 1`). -/
theorem adaMaxUpdate_i0_noop_c3_witness :
    sampleAdaMax.adaMax = true ∧ sampleAdaMax.beta1 ≠ 1 ∧
      (sampleAdaMax.Update onesMat 1 onesMat 0).2 = onesMat :=
  ⟨rfl, by norm_num [sampleAdaMax, sampleAdam],
    adaMaxUpdate_i0_noop_c3 sampleAdaMax onesMat 1 onesMat rfl
      (by norm_num [sampleAdaMax, sampleAdam])⟩

/-- Counterexample to claim C7: in the guarded AdaMax edge case
(`i = 0`, `beta1 = 1/2 ≠ 1`), the call is NOT free of work on the internal
state: with zero accumulators and gradient of ones, `m` changes from 0 to
`(1 − beta1)·1 = 1/2`.  The C++ code updates `m` and `u` before the guard;
only the iterate assignment is skipped. -/
theorem adaMaxUpdate_i0_state_changes_c7_cex :
    ¬ ((sampleAdaMax.Update onesMat 1 onesMat 0).1.m = sampleAdaMax.m ∧
       (sampleAdaMax.Update onesMat 1 onesMat 0).1.u = sampleAdaMax.u) := by
  intro h
  have h0 := congrFun (congrFun h.1 0) 0
  norm_num [AdamUpdate.Update, sampleAdaMax, sampleAdam, onesMat] at h0

/-- Claim C7 as amended: in the guarded AdaMax edge case
(`1 − beta1^i = 0`), the parameter matrix is returned unchanged, but the
accumulators are still updated: `m ← beta1·m + (1−beta1)·g` and
`u ← max(beta2·u, |g|)` elementwise (and `v` is untouched, as always in
AdaMax mode). -/
theorem adaMaxUpdate_i0_frame_c7 {r c : ℕ} (s : AdamUpdate r c)
    (iterate : Mat r c) (stepSize : ℝ) (gradient : Mat r c) (i : ℕ)
    (hA : s.adaMax = true) (hb : 1 - s.beta1 ^ i = 0) :
    s.Update iterate stepSize gradient i =
      ({ s with
          m := fun a b => s.beta1 * s.m a b + (1 - s.beta1) * gradient a b,
          u := fun a b => max (s.beta2 * s.u a b) |gradient a b| },
       iterate) := by
  simp [AdamUpdate.Update, hA, hb]

/-- Witness for the amended C7 at the concrete AdaMax sample state with
iteration index 0 (`1 − (1/2)^0 = 0`). -/
theorem adaMaxUpdate_i0_frame_c7_witness :
    sampleAdaMax.adaMax = true ∧ (1 - sampleAdaMax.beta1 ^ 0 = 0) ∧
      sampleAdaMax.Update onesMat 1 onesMat 0 =
        ({ sampleAdaMax with
            m := fun a b => sampleAdaMax.beta1 * sampleAdaMax.m a b +
              (1 - sampleAdaMax.beta1) * onesMat a b,
            u := fun a b =>
              max (sampleAdaMax.beta2 * sampleAdaMax.u a b) |onesMat a b| },
         onesMat) :=
  ⟨rfl, by norm_num [sampleAdaMax, sampleAdam],
    adaMaxUpdate_i0_frame_c7 sampleAdaMax onesMat 1 onesMat 0 rfl
      (by norm_num [sampleAdaMax, sampleAdam])⟩

/-- Claim C6: `Initialise` sets `m` to the zero matrix and sets the
accumulator selected by the current variant flag (`u` when `adaMax`, `v`
otherwise) to the zero matrix, for every prior state — i.e. regardless of
previously accumulated values. -/
theorem initialise_zeroes_c6 {r c : ℕ} (s : AdamUpdate r c) :
    s.Initialise.m = 0 ∧
      (if s.adaMax then s.Initialise.u else s.Initialise.v) = 0 := by
  cases hA : s.adaMax <;> simp [AdamUpdate.Initialise, hA]

/-- Claim C10: `Initialise` zeroes only the accumulator selected by the
variant flag: when `adaMax` is false, `u` keeps its previous contents, and
when `adaMax` is true, `v` keeps its previous contents. -/
theorem initialise_frame_c10 {r c : ℕ} (s : AdamUpdate r c) :
    s.Initialise.u = (if s.adaMax then 0 else s.u) ∧
      s.Initialise.v = (if s.adaMax then s.v else 0) := by
  cases hA : s.adaMax <;> simp [AdamUpdate.Initialise, hA]

/-- `double& Epsilon()` used as a setter: overwrite `epsilon`. -/
def AdamUpdate.setEpsilon {r c : ℕ} (s : AdamUpdate r c) (x : ℝ) :
    AdamUpdate r c := { s with epsilon := x }

/-- `double& Beta1()` used as a setter: overwrite `beta1`. -/
def AdamUpdate.setBeta1 {r c : ℕ} (s : AdamUpdate r c) (x : ℝ) :
    AdamUpdate r c := { s with beta1 := x }

/-- `double& Beta2()` used as a setter: overwrite `beta2`. -/
def AdamUpdate.setBeta2 {r c : ℕ} (s : AdamUpdate r c) (x : ℝ) :
    AdamUpdate r c := { s with beta2 := x }

/-- `bool& AdaMax()` used as a setter: overwrite the variant flag. -/
def AdamUpdate.setAdaMax {r c : ℕ} (s : AdamUpdate r c) (b : Bool) :
    AdamUpdate r c := { s with adaMax := b }

/-- Claim C9: mutating any configuration value through its accessor leaves
all three accumulator matrices unchanged at the moment of mutation (and the
parameter matrix, which lives outside the state, is not touched at all);
the accessor stores exactly the new value, which therefore can influence
only subsequent `Update` calls. -/
theorem accessor_mutation_frame_c9 {r c : ℕ} (s : AdamUpdate r c)
    (x y z : ℝ) (b : Bool) :
    ((s.setEpsilon x).m = s.m ∧ (s.setEpsilon x).u = s.u ∧
      (s.setEpsilon x).v = s.v ∧ (s.setEpsilon x).epsilon = x) ∧
    ((s.setBeta1 y).m = s.m ∧ (s.setBeta1 y).u = s.u ∧
      (s.setBeta1 y).v = s.v ∧ (s.setBeta1 y).beta1 = y) ∧
    ((s.setBeta2 z).m = s.m ∧ (s.setBeta2 z).u = s.u ∧
      (s.setBeta2 z).v = s.v ∧ (s.setBeta2 z).beta2 = z) ∧
    ((s.setAdaMax b).m = s.m ∧ (s.setAdaMax b).u = s.u ∧
      (s.setAdaMax b).v = s.v ∧ (s.setAdaMax b).adaMax = b) :=
  ⟨⟨rfl, rfl, rfl, rfl⟩, ⟨rfl, rfl, rfl, rfl⟩,
   ⟨rfl, rfl, rfl, rfl⟩, ⟨rfl, rfl, rfl, rfl⟩⟩

/-- Run `Update` once per element of `calls`, feeding the all-zero gradient
matrix to every call; each list element supplies that call's step size and
iteration index.  Models a finite sequence of `update` calls. -/
noncomputable def AdamUpdate.updateZeroGradRun {r c : ℕ} (s : AdamUpdate r c)
    (iterate : Mat r c) : List (ℝ × ℕ) → AdamUpdate r c × Mat r c
  | [] => (s, iterate)
  | call :: rest =>
    AdamUpdate.updateZeroGradRun (s.Update iterate call.1 0 call.2).1
      (s.Update iterate call.1 0 call.2).2 rest

/-- One zero-gradient `Update` call on a state with zero first moment keeps
the first moment zero and returns the iterate unchanged (both variants). -/
theorem update_zeroGrad_fix {r c : ℕ} (s : AdamUpdate r c) (iterate : Mat r c)
    (stepSize : ℝ) (i : ℕ) (hm : s.m = 0) :
    (s.Update iterate stepSize 0 i).1.m = 0 ∧
      (s.Update iterate stepSize 0 i).2 = iterate := by
  cases hA : s.adaMax
  · constructor
    · funext a b
      simp [AdamUpdate.Update, hA, hm]
    · funext a b
      simp [AdamUpdate.Update, hA, hm, ite_apply]
  · constructor
    · funext a b
      simp [AdamUpdate.Update, hA, hm]
    · funext a b
      simp [AdamUpdate.Update, hA, hm, ite_apply]

/-- Claim C5: starting from a state whose first moment is the zero matrix
(as after `Initialise`), any finite sequence of `Update` calls with all-zero
gradients and iteration indices ≥ 1 returns the parameter matrix unchanged;
the first moment stays the zero matrix throughout, so each update term is
zero.  Holds for both variants. -/
theorem zeroGradRun_params_unchanged_c5 {r c : ℕ} (s : AdamUpdate r c)
    (iterate : Mat r c) (calls : List (ℝ × ℕ)) (hm : s.m = 0)
    (hcalls : ∀ p ∈ calls, 1 ≤ p.2) :
    (AdamUpdate.updateZeroGradRun s iterate calls).2 = iterate ∧
      (AdamUpdate.updateZeroGradRun s iterate calls).1.m = 0 := by
  induction calls generalizing s iterate with
  | nil => exact ⟨rfl, hm⟩
  | cons head tail ih =>
    have h := update_zeroGrad_fix s iterate head.1 head.2 hm
    simp only [AdamUpdate.updateZeroGradRun]
    rw [h.2]
    exact ih _ _ h.1 fun p hp => hcalls p (List.mem_cons_of_mem _ hp)

/-- Witness for C5 at the concrete sample state (both hypothesis shapes
discharged at a two-call sequence with indices 1 and 2). -/
theorem zeroGradRun_params_unchanged_c5_witness :
    sampleAdam.m = 0 ∧ (∀ p ∈ [((1 : ℝ), 1), ((1 : ℝ), 2)], 1 ≤ p.2) ∧
      ((AdamUpdate.updateZeroGradRun sampleAdam onesMat
          [((1 : ℝ), 1), ((1 : ℝ), 2)]).2 = onesMat ∧
        (AdamUpdate.updateZeroGradRun sampleAdam onesMat
          [((1 : ℝ), 1), ((1 : ℝ), 2)]).1.m = 0) :=
  ⟨rfl, by simp,
    zeroGradRun_params_unchanged_c5 sampleAdam onesMat
      [((1 : ℝ), 1), ((1 : ℝ), 2)] rfl (by simp)⟩

/-- Run `Update` `n` times with a constant step size and a constant gradient
matrix, with iteration indices 1, 2, ..., n, as the SGD driver does. -/
noncomputable def AdamUpdate.updateRunConst {r c : ℕ} (s : AdamUpdate r c)
    (iterate : Mat r c) (stepSize : ℝ) (gradient : Mat r c) :
    ℕ → AdamUpdate r c × Mat r c
  | 0 => (s, iterate)
  | n + 1 =>
    (AdamUpdate.updateRunConst s iterate stepSize gradient n).1.Update
      (AdamUpdate.updateRunConst s iterate stepSize gradient n).2
      stepSize gradient (n + 1)

/-- `Update` never changes the hyperparameters or the variant flag. -/
theorem update_config_unchanged {r c : ℕ} (s : AdamUpdate r c)
    (iterate : Mat r c) (stepSize : ℝ) (gradient : Mat r c) (i : ℕ) :
    (s.Update iterate stepSize gradient i).1.beta1 = s.beta1 ∧
      (s.Update iterate stepSize gradient i).1.beta2 = s.beta2 ∧
      (s.Update iterate stepSize gradient i).1.adaMax = s.adaMax := by
  cases hA : s.adaMax <;> simp [AdamUpdate.Update, hA]

/-- `Update` always performs `m ← beta1·m + (1 − beta1)·g` (both variants). -/
theorem update_m_step {r c : ℕ} (s : AdamUpdate r c) (iterate : Mat r c)
    (stepSize : ℝ) (gradient : Mat r c) (i : ℕ) :
    (s.Update iterate stepSize gradient i).1.m =
      fun a b => s.beta1 * s.m a b + (1 - s.beta1) * gradient a b := by
  cases hA : s.adaMax <;> simp [AdamUpdate.Update, hA]

/-- In Adam mode `Update` performs `v ← beta2·v + (1 − beta2)·(g ⊙ g)`. -/
theorem update_v_step {r c : ℕ} (s : AdamUpdate r c) (iterate : Mat r c)
    (stepSize : ℝ) (gradient : Mat r c) (i : ℕ) (hA : s.adaMax = false) :
    (s.Update iterate stepSize gradient i).1.v =
      fun a b => s.beta2 * s.v a b +
        (1 - s.beta2) * (gradient a b * gradient a b) := by
  simp [AdamUpdate.Update, hA]

/-- In AdaMax mode `Update` performs `u ← max(beta2·u, |g|)`. -/
theorem update_u_step {r c : ℕ} (s : AdamUpdate r c) (iterate : Mat r c)
    (stepSize : ℝ) (gradient : Mat r c) (i : ℕ) (hA : s.adaMax = true) :
    (s.Update iterate stepSize gradient i).1.u =
      fun a b => max (s.beta2 * s.u a b) |gradient a b| := by
  simp [AdamUpdate.Update, hA]

/-- Along a constant-gradient run the hyperparameters never change. -/
theorem updateRunConst_config {r c : ℕ} (s : AdamUpdate r c)
    (iterate : Mat r c) (stepSize : ℝ) (gradient : Mat r c) (n : ℕ) :
    (AdamUpdate.updateRunConst s iterate stepSize gradient n).1.beta1 = s.beta1 ∧
      (AdamUpdate.updateRunConst s iterate stepSize gradient n).1.beta2 = s.beta2 ∧
      (AdamUpdate.updateRunConst s iterate stepSize gradient n).1.adaMax =
        s.adaMax := by
  induction n with
  | zero => exact ⟨rfl, rfl, rfl⟩
  | succ n ih =>
    have h := update_config_unchanged
      (AdamUpdate.updateRunConst s iterate stepSize gradient n).1
      (AdamUpdate.updateRunConst s iterate stepSize gradient n).2
      stepSize gradient (n + 1)
    exact ⟨h.1.trans ih.1, h.2.1.trans ih.2.1, h.2.2.trans ih.2.2⟩

/-- Closed form for the first moment along a constant-gradient run starting
from a zero first moment: after `n` calls, `m = (1 − beta1^n) · g`. -/
theorem updateRunConst_m_closed {r c : ℕ} (s : AdamUpdate r c)
    (iterate : Mat r c) (stepSize : ℝ) (gradient : Mat r c) (hm : s.m = 0)
    (n : ℕ) :
    (AdamUpdate.updateRunConst s iterate stepSize gradient n).1.m =
      fun a b => (1 - s.beta1 ^ n) * gradient a b := by
  induction n with
  | zero =>
    funext a b
    simp [AdamUpdate.updateRunConst, hm]
  | succ n ih =>
    have hstep := update_m_step
      (AdamUpdate.updateRunConst s iterate stepSize gradient n).1
      (AdamUpdate.updateRunConst s iterate stepSize gradient n).2
      stepSize gradient (n + 1)
    have hcfg := updateRunConst_config s iterate stepSize gradient n
    funext a b
    rw [AdamUpdate.updateRunConst, hstep]
    rw [ih, hcfg.1]
    ring

/-- Closed form for the second moment in Adam mode along a constant-gradient
run starting from zero: after `n` calls, `v = (1 − beta2^n) · (g ⊙ g)`. -/
theorem updateRunConst_v_closed {r c : ℕ} (s : AdamUpdate r c)
    (iterate : Mat r c) (stepSize : ℝ) (gradient : Mat r c)
    (hA : s.adaMax = false) (hv : s.v = 0) (n : ℕ) :
    (AdamUpdate.updateRunConst s iterate stepSize gradient n).1.v =
      fun a b => (1 - s.beta2 ^ n) * (gradient a b * gradient a b) := by
  induction n with
  | zero =>
    funext a b
    simp [AdamUpdate.updateRunConst, hv]
  | succ n ih =>
    have hcfg := updateRunConst_config s iterate stepSize gradient n
    have hstep := update_v_step
      (AdamUpdate.updateRunConst s iterate stepSize gradient n).1
      (AdamUpdate.updateRunConst s iterate stepSize gradient n).2
      stepSize gradient (n + 1) (hcfg.2.2.trans hA)
    funext a b
    rw [AdamUpdate.updateRunConst, hstep]
    rw [ih, hcfg.2.1]
    ring

/-- Along a constant-gradient run in AdaMax mode with `0 ≤ beta2 ≤ 1`,
starting from a zero infinity norm, `u` equals `|g|` from the first call
on. -/
theorem updateRunConst_u_closed {r c : ℕ} (s : AdamUpdate r c)
    (iterate : Mat r c) (stepSize : ℝ) (gradient : Mat r c)
    (hA : s.adaMax = true) (hu : s.u = 0) (h20 : 0 ≤ s.beta2)
    (h21 : s.beta2 ≤ 1) (n : ℕ) (hn : 1 ≤ n) :
    (AdamUpdate.updateRunConst s iterate stepSize gradient n).1.u =
      fun a b => |gradient a b| := by
  induction n with
  | zero => exact absurd hn (by norm_num)
  | succ n ih =>
    have hcfg := updateRunConst_config s iterate stepSize gradient n
    have hstep := update_u_step
      (AdamUpdate.updateRunConst s iterate stepSize gradient n).1
      (AdamUpdate.updateRunConst s iterate stepSize gradient n).2
      stepSize gradient (n + 1) (hcfg.2.2.trans hA)
    rcases Nat.eq_zero_or_pos n with hn0 | hn1
    · subst hn0
      funext a b
      rw [AdamUpdate.updateRunConst, hstep]
      simp [AdamUpdate.updateRunConst, hu, abs_nonneg]
    · funext a b
      rw [AdamUpdate.updateRunConst, hstep]
      rw [ih hn1, hcfg.2.1]
      exact max_eq_right (mul_le_of_le_one_left (abs_nonneg _) h21)

/-- Claim C8: for a constant nonzero gradient applied over calls with
iteration indices 1, 2, 3, ..., starting from zero accumulators with
`0 ≤ beta1 < 1` and `0 ≤ beta2 < 1`: the first moment has closed form
`(1 − beta1^n) · g` and converges elementwise to `g`; in Adam mode the
second moment has closed form `(1 − beta2^n) · (g ⊙ g)` and converges
elementwise to `g ⊙ g`; in AdaMax mode the infinity norm equals `|g|` from
the first call on, hence converges elementwise to `|g|`. -/
theorem updateRunConst_convergence_c8 {r c : ℕ} (s : AdamUpdate r c)
    (iterate : Mat r c) (stepSize : ℝ) (gradient : Mat r c)
    (hg : gradient ≠ 0) (hm : s.m = 0) (h10 : 0 ≤ s.beta1) (h11 : s.beta1 < 1)
    (h20 : 0 ≤ s.beta2) (h21 : s.beta2 < 1) :
    ((∀ n, (AdamUpdate.updateRunConst s iterate stepSize gradient n).1.m =
        fun a b => (1 - s.beta1 ^ n) * gradient a b) ∧
      (∀ a b, Filter.Tendsto
        (fun n => (AdamUpdate.updateRunConst s iterate stepSize gradient n).1.m a b)
        Filter.atTop (nhds (gradient a b)))) ∧
    (s.adaMax = false → s.v = 0 →
      (∀ n, (AdamUpdate.updateRunConst s iterate stepSize gradient n).1.v =
          fun a b => (1 - s.beta2 ^ n) * (gradient a b * gradient a b)) ∧
        (∀ a b, Filter.Tendsto
          (fun n => (AdamUpdate.updateRunConst s iterate stepSize gradient n).1.v a b)
          Filter.atTop (nhds (gradient a b * gradient a b)))) ∧
    (s.adaMax = true → s.u = 0 →
      (∀ n, 1 ≤ n →
          (AdamUpdate.updateRunConst s iterate stepSize gradient n).1.u =
            fun a b => |gradient a b|) ∧
        (∀ a b, Filter.Tendsto
          (fun n => (AdamUpdate.updateRunConst s iterate stepSize gradient n).1.u a b)
          Filter.atTop (nhds |gradient a b|))) := by
  have hm1 : ∀ n, (AdamUpdate.updateRunConst s iterate stepSize gradient n).1.m =
      fun a b => (1 - s.beta1 ^ n) * gradient a b :=
    updateRunConst_m_closed s iterate stepSize gradient hm
  have hpow1 : Filter.Tendsto (fun n => s.beta1 ^ n) Filter.atTop (nhds 0) :=
    tendsto_pow_atTop_nhds_zero_of_lt_one h10 h11
  have hpow2 : Filter.Tendsto (fun n => s.beta2 ^ n) Filter.atTop (nhds 0) :=
    tendsto_pow_atTop_nhds_zero_of_lt_one h20 h21
  refine ⟨⟨hm1, fun a b => ?_⟩, fun hA hv => ⟨?_, fun a b => ?_⟩,
    fun hA hu => ⟨?_, fun a b => ?_⟩⟩
  · have h1 : Filter.Tendsto (fun n : ℕ => (1 : ℝ) - s.beta1 ^ n)
        Filter.atTop (nhds (1 - 0)) := tendsto_const_nhds.sub hpow1
    have h2 := h1.mul_const (gradient a b)
    simp only [sub_zero, one_mul] at h2
    refine h2.congr fun n => ?_
    rw [hm1 n]
  · exact updateRunConst_v_closed s iterate stepSize gradient hA hv
  · have h1 : Filter.Tendsto (fun n : ℕ => (1 : ℝ) - s.beta2 ^ n)
        Filter.atTop (nhds (1 - 0)) := tendsto_const_nhds.sub hpow2
    have h2 := h1.mul_const (gradient a b * gradient a b)
    simp only [sub_zero, one_mul] at h2
    refine h2.congr fun n => ?_
    rw [updateRunConst_v_closed s iterate stepSize gradient hA hv n]
  · exact fun n hn =>
      updateRunConst_u_closed s iterate stepSize gradient hA hu h20 h21.le n hn
  · refine Filter.Tendsto.congr' ?_ tendsto_const_nhds
    filter_upwards [Filter.eventually_ge_atTop 1] with n hn
    rw [updateRunConst_u_closed s iterate stepSize gradient hA hu h20 h21.le n hn]

/-- Witness for C8 at the concrete Adam sample state, step size 1 and
gradient of ones. -/
theorem updateRunConst_convergence_c8_witness :
    onesMat ≠ (0 : Mat 1 1) ∧ sampleAdam.m = 0 ∧
      0 ≤ sampleAdam.beta1 ∧ sampleAdam.beta1 < 1 ∧
      0 ≤ sampleAdam.beta2 ∧ sampleAdam.beta2 < 1 ∧
      (((∀ n, (AdamUpdate.updateRunConst sampleAdam onesMat 1 onesMat n).1.m =
          fun a b => (1 - sampleAdam.beta1 ^ n) * onesMat a b) ∧
        (∀ a b, Filter.Tendsto
          (fun n => (AdamUpdate.updateRunConst sampleAdam onesMat 1 onesMat n).1.m a b)
          Filter.atTop (nhds (onesMat a b)))) ∧
      (sampleAdam.adaMax = false → sampleAdam.v = 0 →
        (∀ n, (AdamUpdate.updateRunConst sampleAdam onesMat 1 onesMat n).1.v =
            fun a b => (1 - sampleAdam.beta2 ^ n) * (onesMat a b * onesMat a b)) ∧
          (∀ a b, Filter.Tendsto
            (fun n => (AdamUpdate.updateRunConst sampleAdam onesMat 1 onesMat n).1.v a b)
            Filter.atTop (nhds (onesMat a b * onesMat a b)))) ∧
      (sampleAdam.adaMax = true → sampleAdam.u = 0 →
        (∀ n, 1 ≤ n →
            (AdamUpdate.updateRunConst sampleAdam onesMat 1 onesMat n).1.u =
              fun a b => |onesMat a b|) ∧
          (∀ a b, Filter.Tendsto
            (fun n => (AdamUpdate.updateRunConst sampleAdam onesMat 1 onesMat n).1.u a b)
            Filter.atTop (nhds |onesMat a b|)))) :=
  ⟨fun h => absurd (congrFun (congrFun h 0) 0) (by norm_num [onesMat]),
    rfl, by norm_num [sampleAdam], by norm_num [sampleAdam],
    by norm_num [sampleAdam], by norm_num [sampleAdam],
    updateRunConst_convergence_c8 sampleAdam onesMat 1 onesMat
      (fun h => absurd (congrFun (congrFun h 0) 0) (by norm_num [onesMat]))
      rfl (by norm_num [sampleAdam]) (by norm_num [sampleAdam])
      (by norm_num [sampleAdam]) (by norm_num [sampleAdam])⟩

/-- A `double` value as seen by the finiteness semantics of IEEE 754:
either an exact finite value, one of the two infinities, or NaN.  Arithmetic
on finite values is exact (rounding and overflow are not modelled; the
signed zero is collapsed to 0), while the propagation rules for infinities
and NaN follow IEEE 754. -/
inductive Fp where
  | val : ℝ → Fp
  | pinf : Fp
  | ninf : Fp
  | nan : Fp

/-- Whether an `Fp` scalar is a finite value. -/
def Fp.isFinite : Fp → Bool
  | Fp.val _ => true
  | _ => false

/-- IEEE negation. -/
def Fp.neg : Fp → Fp
  | Fp.val x => Fp.val (-x)
  | Fp.pinf => Fp.ninf
  | Fp.ninf => Fp.pinf
  | Fp.nan => Fp.nan

/-- IEEE addition: NaN propagates, opposite infinities give NaN. -/
def Fp.add : Fp → Fp → Fp
  | Fp.nan, _ => Fp.nan
  | _, Fp.nan => Fp.nan
  | Fp.val x, Fp.val y => Fp.val (x + y)
  | Fp.val _, Fp.pinf => Fp.pinf
  | Fp.pinf, Fp.val _ => Fp.pinf
  | Fp.val _, Fp.ninf => Fp.ninf
  | Fp.ninf, Fp.val _ => Fp.ninf
  | Fp.pinf, Fp.pinf => Fp.pinf
  | Fp.ninf, Fp.ninf => Fp.ninf
  | Fp.pinf, Fp.ninf => Fp.nan
  | Fp.ninf, Fp.pinf => Fp.nan

/-- IEEE subtraction, via negation. -/
def Fp.sub (x y : Fp) : Fp := x.add y.neg

/-- IEEE multiplication: NaN propagates, `0 · ∞` gives NaN. -/
noncomputable def Fp.mul : Fp → Fp → Fp
  | Fp.nan, _ => Fp.nan
  | _, Fp.nan => Fp.nan
  | Fp.val x, Fp.val y => Fp.val (x * y)
  | Fp.val x, Fp.pinf =>
    if 0 < x then Fp.pinf else if x < 0 then Fp.ninf else Fp.nan
  | Fp.val x, Fp.ninf =>
    if 0 < x then Fp.ninf else if x < 0 then Fp.pinf else Fp.nan
  | Fp.pinf, Fp.val y =>
    if 0 < y then Fp.pinf else if y < 0 then Fp.ninf else Fp.nan
  | Fp.ninf, Fp.val y =>
    if 0 < y then Fp.ninf else if y < 0 then Fp.pinf else Fp.nan
  | Fp.pinf, Fp.pinf => Fp.pinf
  | Fp.pinf, Fp.ninf => Fp.ninf
  | Fp.ninf, Fp.pinf => Fp.ninf
  | Fp.ninf, Fp.ninf => Fp.pinf

/-- IEEE division: `0/0` and `∞/∞` give NaN, `x/0` with `x ≠ 0` gives a
signed infinity, `x/∞` gives zero. -/
noncomputable def Fp.div : Fp → Fp → Fp
  | Fp.nan, _ => Fp.nan
  | _, Fp.nan => Fp.nan
  | Fp.val x, Fp.val y =>
    if y = 0 then (if x = 0 then Fp.nan else if 0 < x then Fp.pinf else Fp.ninf)
    else Fp.val (x / y)
  | Fp.val _, Fp.pinf => Fp.val 0
  | Fp.val _, Fp.ninf => Fp.val 0
  | Fp.pinf, Fp.val y => if 0 ≤ y then Fp.pinf else Fp.ninf
  | Fp.ninf, Fp.val y => if 0 ≤ y then Fp.ninf else Fp.pinf
  | _, _ => Fp.nan

/-- IEEE square root: NaN for negative arguments. -/
noncomputable def Fp.sqrt : Fp → Fp
  | Fp.nan => Fp.nan
  | Fp.pinf => Fp.pinf
  | Fp.ninf => Fp.nan
  | Fp.val x => if x < 0 then Fp.nan else Fp.val (Real.sqrt x)

/-- `std::pow(x, (double) n)` for a natural exponent: `pow(x, 0) = 1`
(even for NaN, per IEEE), otherwise repeated multiplication. -/
noncomputable def Fp.powNat : Fp → ℕ → Fp
  | _, 0 => Fp.val 1
  | x, n + 1 => x.mul (x.powNat n)

/-- One matrix entry of the Adam branch (`adaMax = false`) of
`AdamUpdate::Update`, computed over the IEEE scalar model `Fp`: the same
lines as in `AdamUpdate.Update`, with `m`, `v`, `iterate`, `gradient`
standing for the entry of the respective matrix.  Returns the new `m`
entry, the new `v` entry, and the new `iterate` entry. -/
noncomputable def adamUpdateEntryFp (epsilon beta1 beta2 m v : Fp)
    (iterate stepSize gradient : Fp) (i : ℕ) : Fp × Fp × Fp :=
  let m1 := (beta1.mul m).add (((Fp.val 1).sub beta1).mul gradient)
  let v1 := (beta2.mul v).add
    (((Fp.val 1).sub beta2).mul (gradient.mul gradient))
  let biasCorrection1 := (Fp.val 1).sub (beta1.powNat i)
  let biasCorrection2 := (Fp.val 1).sub (beta2.powNat i)
  let iterate1 := iterate.sub
    ((((stepSize.mul biasCorrection2.sqrt).div biasCorrection1).mul m1).div
      ((v1.sqrt).add epsilon))
  (m1, v1, iterate1)

/-- Claim C4: the Adam branch is not guarded against iteration index 0.
There, `biasCorrection1 = 1 − beta1^0 = 0`, yet the division is performed;
under IEEE `double` semantics the coefficient is
`stepSize · sqrt(0) / 0 = 0/0 = NaN`, so the resulting parameter entry is
non-finite (here: with zero accumulators, zero gradient, `iterate = 3`,
`stepSize = 1`, `epsilon = 1`, `beta1 = beta2 = 1/2`).  By contrast the
AdaMax branch is guarded and leaves the parameters unchanged at index 0 —
exactly the claimed asymmetry. -/
theorem adamUpdate_i0_unguarded_nonfinite_c4 :
    1 - sampleAdam.beta1 ^ (0 : ℕ) = 0 ∧
      (adamUpdateEntryFp (Fp.val 1) (Fp.val (1/2)) (Fp.val (1/2))
          (Fp.val 0) (Fp.val 0) (Fp.val 3) (Fp.val 1) (Fp.val 0) 0).2.2 =
        Fp.nan ∧
      (adamUpdateEntryFp (Fp.val 1) (Fp.val (1/2)) (Fp.val (1/2))
          (Fp.val 0) (Fp.val 0) (Fp.val 3) (Fp.val 1) (Fp.val 0) 0).2.2.isFinite
        = false ∧
      (sampleAdaMax.Update onesMat 1 onesMat 0).2 = onesMat := by
  refine ⟨by norm_num [sampleAdam], ?_, ?_, ?_⟩
  · norm_num [adamUpdateEntryFp, Fp.powNat, Fp.mul, Fp.add, Fp.sub, Fp.neg,
      Fp.div, Fp.sqrt]
  · norm_num [adamUpdateEntryFp, Fp.powNat, Fp.mul, Fp.add, Fp.sub, Fp.neg,
      Fp.div, Fp.sqrt, Fp.isFinite]
  · simp [AdamUpdate.Update, sampleAdaMax, sampleAdam]
